import Mathlib

/-!
Shallow embedding of the staleness-aware cache and reconciliation engine of
the running-playlist generator (src/cache.py and src/app.py), together with
theorems settling the frozen claims about it.

Modelling conventions:
* Timestamps are rationals measured in days (UTC). A stored `last_fetched`
  value is `Option ℚ`: `some t` is a timestamp that parses
  (`datetime.fromisoformat` succeeds, or the value is already a `datetime`),
  `none` is an unparseable string. The ambient clock `datetime.utcnow()`
  becomes an explicit `now : ℚ` argument.
* The SQLite tables become functions from the primary key to an optional
  record (`INSERT OR REPLACE` = pointwise update); `CURRENT_TIMESTAMP`
  becomes the explicit `now` argument, stored as `some now`.
* Upstream HTTP calls become injected values: a `requests`/`spotipy`
  exception is the `none` / `.err` case, a successful JSON response the
  `some` / `.ok` case carrying the already-extracted item list (the code
  only ever reads `response.get("items", [])`, `response.get("tracks", [])`
  or `payload.get("content")` from the response envelope).
* The `tempo` field of a ReccoBeats feature object is modelled by the
  abstract result of Python's `obj.get("tempo")` followed by `float(...)`:
  absent/null, a numeric value, a numeric string (float() succeeds), or an
  unconvertible value (float() raises ValueError/TypeError).
-/

/-- `CACHE_TTL_DAYS = 30` from src/cache.py. -/
def CACHE_TTL_DAYS : ℚ := 30

/-- `is_stale` from src/cache.py: true iff `now - last_fetched > days`
(`datetime.utcnow() - last_fetched > timedelta(days=days)`), and true for a
`last_fetched` string that `datetime.fromisoformat` cannot parse
(the `except ValueError: return True` branch, modelled by `none`). -/
def is_stale (last_fetched : Option ℚ) (now : ℚ) (days : ℚ := CACHE_TTL_DAYS) : Bool :=
  match last_fetched with
  | none => true
  | some t => decide (now - t > days)

/-- `startsWithChars p s` is true when `p` is an initial segment of `s`. -/
def startsWithChars : List Char → List Char → Bool
  | [], _ => true
  | _ :: _, [] => false
  | p :: ps, c :: cs => p = c && startsWithChars ps cs

/-- Scan for the first occurrence of `marker` in a character list; return the
suffix following it, or `none` when the marker does not occur. Models
Python's `"track/" in href` test together with
`href.split("track/", maxsplit=1)[-1]`. -/
def afterFirstMarker (marker : List Char) : List Char → Option (List Char)
  | [] => none
  | c :: cs =>
    if startsWithChars marker (c :: cs) then some ((c :: cs).drop marker.length)
    else afterFirstMarker marker cs

/-- The characters of the literal `"track/"` marker. -/
def trackMarker : List Char := "track/".data

/-- `segment.split("?", maxsplit=1)[0]`: the characters before the first `?`. -/
def stripQuery (s : List Char) : List Char :=
  s.takeWhile (fun c => c ≠ '?')

/-- `extract_spotify_id_from_href` from src/cache.py. `if not href` covers
both a missing (`None`) href and the empty string; when `"track/"` occurs in
the href the segment after its first occurrence is taken, otherwise the whole
href is used; the segment is cut at the first `?`; `segment or None` maps the
empty result to `None`. -/
def extract_spotify_id_from_href (href : Option String) : Option String :=
  match href with
  | none => none
  | some h =>
    if h = "" then none
    else
      let segment : List Char :=
        match afterFirstMarker trackMarker h.data with
        | some rest => rest
        | none => h.data
      let segment := stripQuery segment
      if segment = [] then none else some (String.mk segment)

/-- Formalisation of the claim's (and spec §6's) parsing rule, for
comparison with the source function: the identity is the path segment
following the literal `track/` marker with any trailing query string
stripped; a href in which the marker does not occur yields no identity. -/
def specExtractTrackId (href : Option String) : Option String :=
  match href with
  | none => none
  | some h =>
    match afterFirstMarker trackMarker h.data with
    | none => none
    | some rest =>
      let segment := stripQuery rest
      if segment = [] then none else some (String.mk segment)

/-! ## Data model: the store tables of src/cache.py -/

/-- An opaque Spotify track dictionary; the engine only ever inspects its
`id` field (`track.get("id")`, absent or the empty string being falsy). -/
structure Track where
  id : Option String
  deriving DecidableEq

/-- One item of a `current_user_saved_tracks` page: `item.get("track")`. -/
structure SavedItem where
  track : Option Track
  deriving DecidableEq

/-- A row of `user_spotify_data` / `artist_top_tracks`: payload, derived
count and `last_fetched` timestamp. -/
structure CachedList where
  payload : List Track
  count : Nat
  last_fetched : Option ℚ
  deriving DecidableEq

/-- The result of `obj.get("tempo")` on a ReccoBeats feature object,
classified by what `float(tempo)` does with it: the key is absent or null
(`None`, no conversion attempted), a numeric value, a numeric string
(`float` succeeds), or an unconvertible value (`float` raises
`ValueError`/`TypeError`). -/
inductive TempoField where
  | absent
  | null
  | num (q : ℚ)
  | numStr (q : ℚ)
  | unconvertible (s : String)
  deriving DecidableEq

/-- The `tempo_val` computed by `save_track_features`: `None` when the field
is absent/null, `float(tempo)` when it converts, `None` when the coercion
raises and the `except (ValueError, TypeError)` branch catches it. -/
def coerceTempo : TempoField → Option ℚ
  | TempoField.absent => none
  | TempoField.null => none
  | TempoField.num q => some q
  | TempoField.numStr q => some q
  | TempoField.unconvertible _ => none

/-- A raw ReccoBeats feature object as consumed by `save_track_features`:
its `href`, its `tempo` field, and the rest of the object opaquely
(`json.dumps(obj)` is stored verbatim as `features_json`). -/
structure RBFeature where
  href : Option String
  tempo : TempoField
  raw : String
  deriving DecidableEq

/-- A row of the `track_features` table. -/
structure TrackFeatureEntry where
  tempo : Option ℚ
  features : Option String
  last_fetched : Option ℚ
  fetch_status : String
  deriving DecidableEq

/-- The `track_features` table, keyed by `spotify_id`. -/
def FeatureStore : Type := String → Option TrackFeatureEntry

/-- The `user_spotify_data` table, keyed by `(spotify_user_id, data_key)`. -/
def UserStore : Type := String × String → Option CachedList

/-- The `artist_top_tracks` table, keyed by `artist_id`. -/
def ArtistStore : Type := String → Option CachedList

/-- The empty `track_features` table. -/
def emptyFeatureStore : FeatureStore := fun _ => none

/-- The empty `user_spotify_data` table. -/
def emptyUserStore : UserStore := fun _ => none

/-- `INSERT OR REPLACE` on `track_features` for one `spotify_id`. -/
def upsertFeature (store : FeatureStore) (k : String) (v : TrackFeatureEntry) : FeatureStore :=
  fun k2 => if k2 = k then some v else store k2

/-- `load_track_features` from src/cache.py: the restriction of the table to
the requested ids (`WHERE spotify_id IN (...)`); ids with no row are simply
absent from the returned mapping. -/
def load_track_features (store : FeatureStore) (spotify_ids : List String) :
    String → Option TrackFeatureEntry :=
  fun k => if spotify_ids.contains k then store k else none

/-- The row written by `save_track_features` for one feature object:
tempo as coerced, `features_json = json.dumps(obj)` (never null here),
`last_fetched = CURRENT_TIMESTAMP`, `fetch_status = 'ok'`. -/
def okEntry (obj : RBFeature) (now : ℚ) : TrackFeatureEntry :=
  { tempo := coerceTempo obj.tempo
    features := some obj.raw
    last_fetched := some now
    fetch_status := "ok" }

/-- The row written by `mark_tracks_no_data`: null tempo, null
`features_json`, fresh timestamp, `fetch_status = 'no_data'`. -/
def noDataEntry (now : ℚ) : TrackFeatureEntry :=
  { tempo := none
    features := none
    last_fetched := some now
    fetch_status := "no_data" }

/-- `save_track_features` from src/cache.py: for each object in order,
extract the Spotify id from its href, skip the object when no id results
(`if not spotify_id: continue`), otherwise upsert an `ok` row. -/
def save_track_features (store : FeatureStore) (feature_objs : List RBFeature) (now : ℚ) :
    FeatureStore :=
  match feature_objs with
  | [] => store
  | obj :: rest =>
    let store2 :=
      match extract_spotify_id_from_href obj.href with
      | none => store
      | some spotify_id => upsertFeature store spotify_id (okEntry obj now)
    save_track_features store2 rest now

/-- `mark_tracks_no_data` from src/cache.py: upsert a `no_data` row for each
given id, in order. -/
def mark_tracks_no_data (store : FeatureStore) (spotify_ids : List String) (now : ℚ) :
    FeatureStore :=
  match spotify_ids with
  | [] => store
  | spotify_id :: rest =>
    mark_tracks_no_data (upsertFeature store spotify_id (noDataEntry now)) rest now

/-- `save_user_spotify_data` from src/cache.py: whole-record upsert with
`count = len(payload)` and a fresh timestamp. -/
def save_user_spotify_data (store : UserStore) (spotify_user_id : String) (data_key : String)
    (payload : List Track) (now : ℚ) : UserStore :=
  fun k =>
    if k = (spotify_user_id, data_key) then
      some { payload := payload, count := payload.length, last_fetched := some now }
    else store k

/-- `save_artist_top_tracks` from src/cache.py. -/
def save_artist_top_tracks (store : ArtistStore) (artist_id : String)
    (payload : List Track) (now : ℚ) : ArtistStore :=
  fun k =>
    if k = artist_id then
      some { payload := payload, count := payload.length, last_fetched := some now }
    else store k

/-! ## Fetch-or-Reuse Orchestrator (src/app.py) -/

/-- The upstream branch of `fetch_user_top_tracks`: `none` models
`spotipy.SpotifyException` (return `[]`, no store write), `some items`
models a successful response (`response.get("items", [])`), which is saved
and returned. The `Nat` component counts upstream calls. -/
def fetchTopFromUpstream (store : UserStore) (user_id : String) (now : ℚ)
    (fetcher : Option (List Track)) : List Track × UserStore × Nat :=
  match fetcher with
  | none => ([], store, 1)
  | some items => (items, save_user_spotify_data store user_id "top_tracks" items now, 1)

/-- `fetch_user_top_tracks` from src/app.py: serve the cached payload when a
record exists and is not stale, otherwise call upstream. -/
def fetch_user_top_tracks (store : UserStore) (user_id : String) (now : ℚ)
    (fetcher : Option (List Track)) : List Track × UserStore × Nat :=
  match store (user_id, "top_tracks") with
  | some cached =>
    if is_stale cached.last_fetched now then fetchTopFromUpstream store user_id now fetcher
    else (cached.payload, store, 0)
  | none => fetchTopFromUpstream store user_id now fetcher

/-- The upstream branch of `fetch_artist_top_tracks`
(`response.get("tracks", [])`). -/
def fetchArtistFromUpstream (store : ArtistStore) (artist_id : String) (now : ℚ)
    (fetcher : Option (List Track)) : List Track × ArtistStore × Nat :=
  match fetcher with
  | none => ([], store, 1)
  | some tracks => (tracks, save_artist_top_tracks store artist_id tracks now, 1)

/-- `fetch_artist_top_tracks` from src/app.py. -/
def fetch_artist_top_tracks (store : ArtistStore) (artist_id : String) (now : ℚ)
    (fetcher : Option (List Track)) : List Track × ArtistStore × Nat :=
  match store artist_id with
  | some cached =>
    if is_stale cached.last_fetched now then fetchArtistFromUpstream store artist_id now fetcher
    else (cached.payload, store, 0)
  | none => fetchArtistFromUpstream store artist_id now fetcher

/-- One response of `sp.current_user_saved_tracks`: an exception, or a page
of items. The pagination loop is deterministic (offsets increase by the
returned page sizes), so the fetcher is modelled as the sequence of
successive responses; an exhausted sequence behaves as an empty page. -/
inductive PageResult where
  | err
  | page (items : List SavedItem)
  deriving DecidableEq

/-- `if track and track.get("id"): tracks.append(track)` — keep an item's
track when it is present and its id is present and non-empty. -/
def savedItemTrack (item : SavedItem) : Option Track :=
  match item.track with
  | none => none
  | some t =>
    match t.id with
    | none => none
    | some i => if i = "" then none else some t

/-- The pagination loop of `fetch_user_saved_tracks`: accumulate the valid
tracks of each page; stop on an empty page or a short page (fewer items
than `limit`). The Bool is `true` when the loop completed normally and
`false` when a page request raised (`spotipy.SpotifyException`), in which
case the tracks accumulated so far are kept but nothing is saved. -/
def collectSavedPages (limit : Nat) : List PageResult → List Track → Bool × List Track
  | [], tracks => (true, tracks)
  | PageResult.err :: _, tracks => (false, tracks)
  | PageResult.page items :: rest, tracks =>
    if items.isEmpty then (true, tracks)
    else
      let tracks2 := tracks ++ items.filterMap savedItemTrack
      if items.length < limit then (true, tracks2)
      else collectSavedPages limit rest tracks2

/-- The upstream branch of `fetch_user_saved_tracks`: run the pagination
loop; on normal completion save the accumulated tracks, on an exception
return them without saving (the `except` branch only prints). -/
def savedFromUpstream (store : UserStore) (user_id : String) (now : ℚ) (limit : Nat)
    (pages : List PageResult) : List Track × UserStore :=
  match collectSavedPages limit pages [] with
  | (true, tracks) => (tracks, save_user_spotify_data store user_id "saved_tracks" tracks now)
  | (false, tracks) => (tracks, store)

/-- `fetch_user_saved_tracks` from src/app.py. -/
def fetch_user_saved_tracks (store : UserStore) (user_id : String) (now : ℚ) (limit : Nat)
    (pages : List PageResult) : List Track × UserStore :=
  match store (user_id, "saved_tracks") with
  | some cached =>
    if is_stale cached.last_fetched now then savedFromUpstream store user_id now limit pages
    else (cached.payload, store)
  | none => savedFromUpstream store user_id now limit pages

/-! ## Batch Reconciler (`fetch_missing_tempos_with_reccobeats`, src/app.py) -/

/-- One ReccoBeats batch response: a `requests.RequestException`, or a
successful JSON body's `content` list (per the upstream contract the body is
a dict whose `content` field is the list of feature records). -/
inductive ChunkResult where
  | err
  | ok (content : List RBFeature)

/-- The missing-or-retryable ids, in request order: absent from the loaded
map, or present with `fetch_status = 'ok'` and stale, or present with
`fetch_status = 'no_data'` and stale. -/
def computeMissingIds (track_ids : List String)
    (cached_data : String → Option TrackFeatureEntry) (now : ℚ) : List String :=
  track_ids.filter (fun tid =>
    match cached_data tid with
    | none => true
    | some entry =>
      (entry.fetch_status == "ok" && is_stale entry.last_fetched now)
      || (entry.fetch_status == "no_data" && is_stale entry.last_fetched now))

/-- `for i in range(0, len(missing_ids), 40): chunk = missing_ids[i:i+40]`. -/
def chunk40 : List String → List (List String)
  | [] => []
  | x :: xs => ((x :: xs).take 40) :: chunk40 ((x :: xs).drop 40)
termination_by l => l.length
decreasing_by
  simp [List.length_drop]
  omega

/-- The ids parsed from the hrefs of a chunk response's records
(`returned_ids` in the source, a set used only for membership). -/
def returnedIds (content : List RBFeature) : List String :=
  content.filterMap (fun obj => extract_spotify_id_from_href obj.href)

/-- Processing of one successful chunk response: save every record
(`fetch_status = 'ok'`), then mark every requested id of the chunk that is
not among the parsed returned ids as `no_data`. -/
def processOneChunk (store : FeatureStore) (chunk : List String)
    (content : List RBFeature) (now : ℚ) : FeatureStore :=
  let store2 := save_track_features store content now
  let no_data_ids := chunk.filter (fun cid => !((returnedIds content).contains cid))
  if no_data_ids.isEmpty then store2
  else mark_tracks_no_data store2 no_data_ids now

/-- The chunk loop of `fetch_missing_tempos_with_reccobeats`: one upstream
batch request per chunk; on `RequestException` the chunk is skipped
entirely (`continue`), on success it is processed by `processOneChunk`. -/
def processChunks (upstream : List String → ChunkResult) (now : ℚ) :
    List (List String) → FeatureStore → FeatureStore
  | [], store => store
  | chunk :: rest, store =>
    match upstream chunk with
    | ChunkResult.err => processChunks upstream now rest store
    | ChunkResult.ok content =>
      processChunks upstream now rest (processOneChunk store chunk content now)

/-- The batch requests one invocation issues: the missing-or-retryable ids
of the loaded map, split into chunks of 40. -/
def upstreamRequests (store : FeatureStore) (track_ids : List String) (now : ℚ) :
    List (List String) :=
  chunk40 (computeMissingIds track_ids (load_track_features store track_ids) now)

/-- `fetch_missing_tempos_with_reccobeats` from src/app.py: empty input
yields an empty map; with no missing-or-retryable id the loaded map is
returned as is; otherwise the chunks are processed and the full id list is
reloaded from the resulting store. Returns the map together with the
resulting store state. -/
def fetch_missing_tempos_with_reccobeats (store : FeatureStore) (track_ids : List String)
    (now : ℚ) (upstream : List String → ChunkResult) :
    (String → Option TrackFeatureEntry) × FeatureStore :=
  if track_ids.isEmpty then (fun _ => none, store)
  else
    let cached_data := load_track_features store track_ids
    let missing_ids := computeMissingIds track_ids cached_data now
    if missing_ids.isEmpty then (cached_data, store)
    else
      let store2 := processChunks upstream now (chunk40 missing_ids) store
      (load_track_features store2 track_ids, store2)

/-! ## Tempo filter (src/app.py) -/

/-- `filter_tracks_by_tempo` from src/app.py: keep a track id when its
entry exists, has `fetch_status = 'ok'`, a non-null tempo, and
`min_bpm <= tempo <= max_bpm` with `min_bpm = cadence_bpm` and
`max_bpm = cadence_bpm + 9`, both inclusive. -/
def filter_tracks_by_tempo (track_ids : List String)
    (tempo_data : String → Option TrackFeatureEntry) (cadence_bpm : ℤ) : List String :=
  let min_bpm : ℚ := cadence_bpm
  let max_bpm : ℚ := (cadence_bpm : ℚ) + 9
  track_ids.filter (fun track_id =>
    match tempo_data track_id with
    | none => false
    | some metrics =>
      if metrics.fetch_status ≠ "ok" then false
      else
        match metrics.tempo with
        | none => false
        | some tempo => decide (min_bpm ≤ tempo ∧ tempo ≤ max_bpm))

/-! ## Store invariant (claim C8's property) -/

/-- The `track_features` row invariant of spec §3: a present tempo forces
`fetch_status = 'ok'`, and a `no_data` row has null tempo and null raw
features. -/
def entryInvariant (e : TrackFeatureEntry) : Prop :=
  (e.tempo.isSome → e.fetch_status = "ok")
  ∧ (e.fetch_status = "no_data" → e.tempo = none ∧ e.features = none)

/-- Every readable row of a `track_features` table satisfies the row
invariant. -/
def storeInvariant (store : FeatureStore) : Prop :=
  ∀ k e, store k = some e → entryInvariant e

/-! ## Helper lemmas -/

theorem upsertFeature_self (store : FeatureStore) (k : String) (v : TrackFeatureEntry) :
    upsertFeature store k v k = some v := by
  simp [upsertFeature]

theorem upsertFeature_other (store : FeatureStore) (k k2 : String) (v : TrackFeatureEntry)
    (h : k2 ≠ k) : upsertFeature store k v k2 = store k2 := by
  simp [upsertFeature, h]

theorem returnedIds_cons (obj : RBFeature) (rest : List RBFeature) :
    returnedIds (obj :: rest) =
      match extract_spotify_id_from_href obj.href with
      | none => returnedIds rest
      | some sid => sid :: returnedIds rest := by
  simp only [returnedIds, List.filterMap_cons]
  cases extract_spotify_id_from_href obj.href <;> rfl

theorem save_track_features_not_returned (store : FeatureStore) (objs : List RBFeature)
    (now : ℚ) (sid : String) (h : sid ∉ returnedIds objs) :
    save_track_features store objs now sid = store sid := by
  induction objs generalizing store with
  | nil => rfl
  | cons obj rest ih =>
    rw [returnedIds_cons] at h
    rw [save_track_features]
    cases hx : extract_spotify_id_from_href obj.href with
    | none =>
      simp only [hx] at h ⊢
      exact ih store h
    | some sid2 =>
      simp only [hx, List.mem_cons, not_or] at h ⊢
      rw [ih _ h.2, upsertFeature_other _ _ _ _ h.1]

theorem save_track_features_returned (store : FeatureStore) (objs : List RBFeature)
    (now : ℚ) (sid : String) (h : sid ∈ returnedIds objs) :
    ∃ obj ∈ objs, extract_spotify_id_from_href obj.href = some sid
      ∧ save_track_features store objs now sid = some (okEntry obj now) := by
  induction objs generalizing store with
  | nil => simp [returnedIds] at h
  | cons obj rest ih =>
    rw [returnedIds_cons] at h
    by_cases hrest : sid ∈ returnedIds rest
    · rw [save_track_features]
      obtain ⟨o, ho, hex, heq⟩ := ih
        (match extract_spotify_id_from_href obj.href with
          | none => store
          | some spotify_id => upsertFeature store spotify_id (okEntry obj now)) hrest
      exact ⟨o, List.mem_cons_of_mem _ ho, hex, heq⟩
    · cases hx : extract_spotify_id_from_href obj.href with
      | none =>
        simp only [hx] at h
        exact absurd h hrest
      | some sid2 =>
        simp only [hx, List.mem_cons] at h
        rcases h with h | h
        · subst h
          refine ⟨obj, List.mem_cons_self _ _, hx, ?_⟩
          rw [save_track_features, save_track_features_not_returned _ _ _ _ hrest]
          simp only [hx]
          exact upsertFeature_self _ _ _
        · exact absurd h hrest

theorem mark_tracks_no_data_not_mem (store : FeatureStore) (ids : List String)
    (now : ℚ) (sid : String) (h : sid ∉ ids) :
    mark_tracks_no_data store ids now sid = store sid := by
  induction ids generalizing store with
  | nil => rfl
  | cons i rest ih =>
    simp only [List.mem_cons, not_or] at h
    rw [mark_tracks_no_data, ih _ h.2, upsertFeature_other _ _ _ _ h.1]

theorem mark_tracks_no_data_mem (store : FeatureStore) (ids : List String)
    (now : ℚ) (sid : String) (h : sid ∈ ids) :
    mark_tracks_no_data store ids now sid = some (noDataEntry now) := by
  induction ids generalizing store with
  | nil => simp at h
  | cons i rest ih =>
    rw [mark_tracks_no_data]
    by_cases hrest : sid ∈ rest
    · exact ih _ hrest
    · rcases List.mem_cons.mp h with h1 | h1
      · subst h1
        rw [mark_tracks_no_data_not_mem _ _ _ _ hrest, upsertFeature_self]
      · exact absurd h1 hrest

theorem chunk40_flatten (l : List String) : (chunk40 l).flatten = l := by
  induction l using chunk40.induct with
  | case1 => rw [chunk40]; rfl
  | case2 x xs ih =>
    rw [chunk40, List.flatten_cons, ih, List.take_append_drop]

theorem chunk40_length_le (l : List String) (c : List String) (h : c ∈ chunk40 l) :
    c.length ≤ 40 := by
  induction l using chunk40.induct with
  | case1 => simp [chunk40] at h
  | case2 x xs ih =>
    rw [chunk40] at h
    rcases List.mem_cons.mp h with h1 | h1
    · subst h1
      exact le_trans (List.length_take_le _ _) (le_refl _)
    · exact ih h1

theorem processOneChunk_untouched (store : FeatureStore) (chunk : List String)
    (content : List RBFeature) (now : ℚ) (sid : String)
    (h1 : sid ∉ returnedIds content) (h2 : sid ∉ chunk) :
    processOneChunk store chunk content now sid = store sid := by
  rw [processOneChunk]
  have hmark : sid ∉ chunk.filter (fun cid => !((returnedIds content).contains cid)) :=
    fun hmem => h2 (List.mem_of_mem_filter hmem)
  by_cases hempty :
      (chunk.filter (fun cid => !((returnedIds content).contains cid))).isEmpty = true
  · rw [if_pos hempty]
    exact save_track_features_not_returned _ _ _ _ h1
  · rw [if_neg hempty, mark_tracks_no_data_not_mem _ _ _ _ hmark]
    exact save_track_features_not_returned _ _ _ _ h1

theorem processChunks_untouched (upstream : List String → ChunkResult) (now : ℚ)
    (chunks : List (List String)) (store : FeatureStore) (sid : String)
    (h : ∀ c ∈ chunks, ∀ content, upstream c = ChunkResult.ok content →
          sid ∉ returnedIds content ∧ sid ∉ c) :
    processChunks upstream now chunks store sid = store sid := by
  induction chunks generalizing store with
  | nil => rfl
  | cons c rest ih =>
    rw [processChunks]
    cases hc : upstream c with
    | err =>
      show processChunks upstream now rest store sid = store sid
      exact ih store (fun c2 hc2 => h c2 (List.mem_cons_of_mem _ hc2))
    | ok content =>
      have hcc := h c (List.mem_cons_self _ _) content hc
      show processChunks upstream now rest (processOneChunk store c content now) sid = store sid
      rw [ih _ (fun c2 hc2 => h c2 (List.mem_cons_of_mem _ hc2))]
      exact processOneChunk_untouched _ _ _ _ _ hcc.1 hcc.2

theorem processChunks_skip_err (upstream : List String → ChunkResult) (now : ℚ)
    (cs1 cs2 : List (List String)) (c : List String) (store : FeatureStore)
    (h : upstream c = ChunkResult.err) :
    processChunks upstream now (cs1 ++ c :: cs2) store
      = processChunks upstream now (cs1 ++ cs2) store := by
  induction cs1 generalizing store with
  | nil =>
    simp only [List.nil_append]
    rw [processChunks, h]
  | cons c1 rest ih =>
    simp only [List.cons_append]
    rw [processChunks, processChunks]
    cases upstream c1 with
    | err =>
      show processChunks upstream now (rest ++ c :: cs2) store
        = processChunks upstream now (rest ++ cs2) store
      exact ih store
    | ok content =>
      show processChunks upstream now (rest ++ c :: cs2) (processOneChunk store c1 content now)
        = processChunks upstream now (rest ++ cs2) (processOneChunk store c1 content now)
      exact ih _

/-! ## Claim theorems -/

/-- C6: the staleness policy returns true iff `now - last_fetched > ttl_days`
(default 30 days); for a record fetched at `T` it is false at any query time
in `[T, T+30d)` and true at any time strictly greater than `T+30d`; every
unparseable timestamp is treated as maximally stale (true), and the
function, being total, never raises. -/
theorem c6_staleness_policy (t now : ℚ) :
    (∀ days : ℚ, (is_stale (some t) now days = true ↔ now - t > days))
    ∧ (is_stale (some t) now = true ↔ now - t > 30)
    ∧ (t ≤ now → now < t + 30 → is_stale (some t) now = false)
    ∧ (t + 30 < now → is_stale (some t) now = true)
    ∧ (∀ days : ℚ, is_stale none now days = true) := by
  refine ⟨fun days => ?_, ?_, fun h1 h2 => ?_, fun h => ?_, fun days => rfl⟩
  · simp [is_stale]
  · simp [is_stale, CACHE_TTL_DAYS]
  · simp only [is_stale, CACHE_TTL_DAYS, decide_eq_false_iff_not]
    intro hgt
    linarith
  · simp only [is_stale, CACHE_TTL_DAYS, decide_eq_true_eq]
    linarith

/-- Witness for C6 at `T = 0`: fresh at time 10, stale at time 31,
unparseable always stale. -/
theorem c6_staleness_policy_witness :
    is_stale (some 0) 10 = false ∧ is_stale (some 0) 31 = true
      ∧ is_stale none 5 = true :=
  ⟨(c6_staleness_policy 0 10).2.2.1 (by norm_num) (by norm_num),
   (c6_staleness_policy 0 31).2.2.2.1 (by norm_num),
   (c6_staleness_policy 0 5).2.2.2.2 CACHE_TTL_DAYS⟩

/-- C9 counterexample: for the href `"abc"`, which contains no `track/`
marker, an identity is nevertheless extracted — the whole href — so the
extracted identity is not the path segment following a `track/` marker
(`specExtractTrackId`, the claim's parsing rule, yields no identity). -/
theorem c9_extract_counterexample :
    (extract_spotify_id_from_href (some "abc")).isSome = true
    ∧ extract_spotify_id_from_href (some "abc") = some "abc"
    ∧ specExtractTrackId (some "abc") = none
    ∧ extract_spotify_id_from_href (some "abc") ≠ specExtractTrackId (some "abc") := by
  refine ⟨by decide, by decide, by decide, by decide⟩

/-- C9 amended: when the literal `track/` occurs in the href, the identity
is the segment after its first occurrence with any trailing query string
stripped; when it does not occur, the whole href with any trailing query
string stripped is used as the identity; a missing href, an empty href, or
an empty resulting segment yields no identity, and `save_track_features`
skips a record whose href yields no identity rather than storing it under
an empty key. -/
theorem c9_extract_amended (h : String) :
    extract_spotify_id_from_href none = none
    ∧ extract_spotify_id_from_href (some "") = none
    ∧ (∀ rest, afterFirstMarker trackMarker h.data = some rest →
        extract_spotify_id_from_href (some h) =
          (if stripQuery rest = [] then none else some (String.mk (stripQuery rest))))
    ∧ (afterFirstMarker trackMarker h.data = none →
        extract_spotify_id_from_href (some h) =
          (if stripQuery h.data = [] then none else some (String.mk (stripQuery h.data))))
    ∧ (∀ (store : FeatureStore) (objs : List RBFeature) (obj : RBFeature) (now : ℚ),
        extract_spotify_id_from_href obj.href = none →
        save_track_features store (obj :: objs) now = save_track_features store objs now) := by
  refine ⟨rfl, rfl, fun rest hrest => ?_, fun hnone => ?_, fun store objs obj now hskip => ?_⟩
  · have hne : ¬ h = "" := by
      intro he
      subst he
      exact Option.noConfusion hrest
    simp only [extract_spotify_id_from_href, hrest, if_neg hne]
  · by_cases hne : h = ""
    · subst hne
      simp [extract_spotify_id_from_href, stripQuery]
    · simp only [extract_spotify_id_from_href, hnone, if_neg hne]
  · rw [save_track_features]
    simp only [hskip]

/-- Witness for C9 amended: a marker href, a marker-free href, and a
skipped record. -/
theorem c9_extract_amended_witness :
    extract_spotify_id_from_href (some "x/track/abc?q=1") = some "abc"
    ∧ extract_spotify_id_from_href (some "xyz?q=1") = some "xyz"
    ∧ save_track_features emptyFeatureStore [{ href := none, tempo := TempoField.null, raw := "r" }] 3
        = save_track_features emptyFeatureStore [] 3 := by
  refine ⟨?_, ?_, ?_⟩
  · have := (c9_extract_amended "x/track/abc?q=1").2.2.1 "abc?q=1".data (by decide)
    rw [this]
    decide
  · have := (c9_extract_amended "xyz?q=1").2.2.2.1 (by decide)
    rw [this]
    decide
  · exact (c9_extract_amended "").2.2.2.2 emptyFeatureStore []
      { href := none, tempo := TempoField.null, raw := "r" } 3 rfl

/-- The row `save_track_features` writes for a record whose tempo value
does not convert: null tempo, raw features kept, status `ok`. -/
def nullTempoOkEntry (obj : RBFeature) (now : ℚ) : TrackFeatureEntry :=
  { tempo := none, features := some obj.raw, last_fetched := some now, fetch_status := "ok" }

/-- C10: a feature object whose tempo field is present but not convertible
to a number is stored (the coercion error is caught — the embedding is a
total function) with null tempo and `fetch_status = 'ok'`, and any record
with a null tempo is silently excluded by the tempo filter. -/
theorem c10_unconvertible_tempo (store : FeatureStore) (obj : RBFeature) (now : ℚ)
    (s : String) (sid : String)
    (h1 : obj.tempo = TempoField.unconvertible s)
    (h2 : extract_spotify_id_from_href obj.href = some sid) :
    save_track_features store [obj] now sid = some (nullTempoOkEntry obj now)
    ∧ (∀ (track_ids : List String) (tempo_data : String → Option TrackFeatureEntry)
        (cadence_bpm : ℤ) (e : TrackFeatureEntry),
        tempo_data sid = some e → e.tempo = none →
        sid ∉ filter_tracks_by_tempo track_ids tempo_data cadence_bpm) := by
  constructor
  · rw [save_track_features, save_track_features]
    simp only [h2]
    rw [upsertFeature_self]
    simp [okEntry, nullTempoOkEntry, coerceTempo, h1]
  · intro track_ids tempo_data cadence_bpm e he hnone hmem
    rw [filter_tracks_by_tempo] at hmem
    have := (List.mem_filter.mp hmem).2
    simp only [he, hnone] at this
    simp at this

/-- Witness for C10: a record with href `track/abc` and an unconvertible
tempo string is stored under `"abc"` with null tempo and status `ok`. -/
theorem c10_unconvertible_tempo_witness :
    save_track_features emptyFeatureStore
        [{ href := some "track/abc", tempo := TempoField.unconvertible "fast", raw := "r" }] 0 "abc"
      = some (nullTempoOkEntry
          { href := some "track/abc", tempo := TempoField.unconvertible "fast", raw := "r" } 0)
    ∧ "abc" ∉ filter_tracks_by_tempo ["abc"]
        (fun _ => some (nullTempoOkEntry
          { href := some "track/abc", tempo := TempoField.unconvertible "fast", raw := "r" } 0)) 160 := by
  have h := c10_unconvertible_tempo emptyFeatureStore
    { href := some "track/abc", tempo := TempoField.unconvertible "fast", raw := "r" } 0 "fast" "abc"
    rfl (by decide)
  exact ⟨h.1, h.2 ["abc"] _ 160 _ rfl rfl⟩

/-- An `ok` entry with the given tempo, used for concrete filter checks. -/
def tempoEntry (q : ℚ) : TrackFeatureEntry :=
  { tempo := some q, features := none, last_fetched := some 0, fetch_status := "ok" }

/-- C5: the tempo filter retains a track id iff its entry exists, has
`fetch_status = 'ok'`, a non-null tempo, and
`cadence_bpm ≤ tempo ≤ cadence_bpm + 9`, both bounds inclusive (absent,
`no_data` and null-tempo tracks are dropped by the same iff, and the filter
is a total function — it never raises); at cadence 160, tempo 160 and 169
are retained while 159.9 and 169.1 are excluded. -/
theorem c5_tempo_filter (track_ids : List String)
    (tempo_data : String → Option TrackFeatureEntry) (cadence_bpm : ℤ) :
    (∀ tid, tid ∈ filter_tracks_by_tempo track_ids tempo_data cadence_bpm ↔
      tid ∈ track_ids ∧ ∃ e, tempo_data tid = some e ∧ e.fetch_status = "ok"
        ∧ ∃ q, e.tempo = some q ∧ (cadence_bpm : ℚ) ≤ q ∧ q ≤ (cadence_bpm : ℚ) + 9)
    ∧ filter_tracks_by_tempo ["a"] (fun _ => some (tempoEntry 160)) 160 = ["a"]
    ∧ filter_tracks_by_tempo ["a"] (fun _ => some (tempoEntry 169)) 160 = ["a"]
    ∧ filter_tracks_by_tempo ["a"] (fun _ => some (tempoEntry (1599/10))) 160 = []
    ∧ filter_tracks_by_tempo ["a"] (fun _ => some (tempoEntry (1691/10))) 160 = [] := by
  refine ⟨fun tid => ?_, ?_, ?_, ?_, ?_⟩
  · rw [filter_tracks_by_tempo, List.mem_filter]
    refine and_congr_right fun _ => ?_
    cases he : tempo_data tid with
    | none => simp [he]
    | some e =>
      simp only [he]
      by_cases hs : e.fetch_status = "ok"
      · cases ht : e.tempo with
        | none => simp [hs, ht]
        | some q => simp [hs, ht]
      · simp [hs]
  · norm_num [filter_tracks_by_tempo, tempoEntry, List.filter]
  · norm_num [filter_tracks_by_tempo, tempoEntry, List.filter]
  · norm_num [filter_tracks_by_tempo, tempoEntry, List.filter]
  · norm_num [filter_tracks_by_tempo, tempoEntry, List.filter]

/-- Witness for C5: a concrete id with an `ok` entry of tempo 165 is
retained at cadence 160, by the retention iff. -/
theorem c5_tempo_filter_witness :
    "a" ∈ filter_tracks_by_tempo ["a"] (fun _ => some (tempoEntry 165)) 160 :=
  ((c5_tempo_filter ["a"] (fun _ => some (tempoEntry 165)) 160).1 "a").mpr
    ⟨by decide, tempoEntry 165, rfl, rfl, 165, rfl, by norm_num, by norm_num⟩

theorem entryInvariant_okEntry (obj : RBFeature) (now : ℚ) :
    entryInvariant (okEntry obj now) := by
  constructor
  · intro _
    rfl
  · intro hstatus
    exact absurd hstatus (by simp [okEntry])

theorem entryInvariant_noDataEntry (now : ℚ) : entryInvariant (noDataEntry now) := by
  constructor
  · intro hsome
    exact absurd hsome (by simp [noDataEntry])
  · intro _
    exact ⟨rfl, rfl⟩

theorem storeInvariant_upsert (store : FeatureStore) (k : String) (v : TrackFeatureEntry)
    (hs : storeInvariant store) (hv : entryInvariant v) :
    storeInvariant (upsertFeature store k v) := by
  intro k2 e he
  rw [upsertFeature] at he
  by_cases hk : k2 = k
  · rw [if_pos hk] at he
    cases he
    exact hv
  · rw [if_neg hk] at he
    exact hs k2 e he

theorem storeInvariant_save (store : FeatureStore) (objs : List RBFeature) (now : ℚ)
    (hs : storeInvariant store) : storeInvariant (save_track_features store objs now) := by
  induction objs generalizing store with
  | nil => exact hs
  | cons obj rest ih =>
    rw [save_track_features]
    cases hx : extract_spotify_id_from_href obj.href with
    | none =>
      simp only [hx]
      exact ih store hs
    | some sid =>
      simp only [hx]
      exact ih _ (storeInvariant_upsert _ _ _ hs (entryInvariant_okEntry obj now))

theorem storeInvariant_mark (store : FeatureStore) (ids : List String) (now : ℚ)
    (hs : storeInvariant store) : storeInvariant (mark_tracks_no_data store ids now) := by
  induction ids generalizing store with
  | nil => exact hs
  | cons i rest ih =>
    rw [mark_tracks_no_data]
    exact ih _ (storeInvariant_upsert _ _ _ hs (entryInvariant_noDataEntry now))

/-- C8: the `track_features` invariant — a present tempo forces
`fetch_status = 'ok'`, and a `no_data` row has null tempo and null raw
features — holds of the empty store and is preserved by both write
operations: `save_track_features` (which always writes status `ok`) and
`mark_tracks_no_data` (which always writes null tempo and null features),
so every record ever readable from the store satisfies it. -/
theorem c8_feature_store_invariant (store : FeatureStore) (objs : List RBFeature)
    (ids : List String) (now : ℚ) (hs : storeInvariant store) :
    storeInvariant emptyFeatureStore
    ∧ storeInvariant (save_track_features store objs now)
    ∧ storeInvariant (mark_tracks_no_data store ids now) :=
  ⟨fun _ _ he => Option.noConfusion he,
   storeInvariant_save store objs now hs,
   storeInvariant_mark store ids now hs⟩

/-- Witness for C8: both writes applied to the empty store keep the
invariant; in particular the resulting row under `"abc"` satisfies it. -/
theorem c8_feature_store_invariant_witness :
    storeInvariant (save_track_features emptyFeatureStore
      [{ href := some "track/abc", tempo := TempoField.num 120, raw := "r" }] 0)
    ∧ storeInvariant (mark_tracks_no_data emptyFeatureStore ["abc"] 0) :=
  ⟨(c8_feature_store_invariant emptyFeatureStore
      [{ href := some "track/abc", tempo := TempoField.num 120, raw := "r" }] ["abc"] 0
      (fun _ _ he => Option.noConfusion he)).2.1,
   (c8_feature_store_invariant emptyFeatureStore
      [{ href := some "track/abc", tempo := TempoField.num 120, raw := "r" }] ["abc"] 0
      (fun _ _ he => Option.noConfusion he)).2.2⟩

/-- C7: when a fresh (present, not stale) record exists for the key, the
orchestrator returns its cached payload unchanged, leaves the store
unchanged, and performs zero upstream calls — the result does not depend on
the injected fetcher at all, so it is identical for any two fetchers. -/
theorem c7_fast_path (ustore : UserStore) (astore : ArtistStore)
    (user_id artist_id : String) (now : ℚ) (rec arec : CachedList)
    (fetcher : Option (List Track)) :
    (ustore (user_id, "top_tracks") = some rec → is_stale rec.last_fetched now = false →
      fetch_user_top_tracks ustore user_id now fetcher = (rec.payload, ustore, 0))
    ∧ (astore artist_id = some arec → is_stale arec.last_fetched now = false →
      fetch_artist_top_tracks astore artist_id now fetcher = (arec.payload, astore, 0)) := by
  constructor
  · intro h1 h2
    rw [fetch_user_top_tracks, h1]
    simp only [h2]
    rfl
  · intro h1 h2
    rw [fetch_artist_top_tracks, h1]
    simp only [h2]
    rfl

/-- A record fetched at time 0, used for fast-path witnesses. -/
def freshRec : CachedList := { payload := [], count := 0, last_fetched := some 0 }

/-- A user store holding only a fresh `top_tracks` record for user `u`. -/
def c7UserStore : UserStore :=
  fun k => if k = ("u", "top_tracks") then some freshRec else none

/-- An artist store holding only a fresh record for artist `a`. -/
def c7ArtistStore : ArtistStore :=
  fun k => if k = "a" then some freshRec else none

/-- Witness for C7: with fresh records at query time 0, both orchestrators
serve the cache with zero upstream calls, for the `none` fetcher. -/
theorem c7_fast_path_witness :
    fetch_user_top_tracks c7UserStore "u" 0 none = (freshRec.payload, c7UserStore, 0)
    ∧ fetch_artist_top_tracks c7ArtistStore "a" 0 none = (freshRec.payload, c7ArtistStore, 0) :=
  ⟨(c7_fast_path c7UserStore c7ArtistStore "u" "a" 0 freshRec freshRec none).1 rfl
      (by norm_num [is_stale, CACHE_TTL_DAYS, freshRec]),
   (c7_fast_path c7UserStore c7ArtistStore "u" "a" 0 freshRec freshRec none).2 rfl
      (by norm_num [is_stale, CACHE_TTL_DAYS, freshRec])⟩

/-- The single track of the C1 counterexample run. -/
def cexTrack : Track := { id := some "a" }

/-- A saved-tracks fetcher trace: one full page (page size = the requested
limit 1), then an exception on the second request — a mid-pagination
failure. -/
def cexPages : List PageResult := [PageResult.page [{ track := some cexTrack }], PageResult.err]

/-- C1 counterexample: with no cached record, page limit 1, one full first
page and an exception on the second page request, the saved-tracks
collector returns the partially accumulated payload `[cexTrack]` — not an
empty payload as the claim states for every orchestrated resource. -/
theorem c1_counterexample :
    (fetch_user_saved_tracks emptyUserStore "u" 0 1 cexPages).1 = [cexTrack]
    ∧ (fetch_user_saved_tracks emptyUserStore "u" 0 1 cexPages).1 ≠ [] := by
  refine ⟨by decide, by decide⟩

/-- C1 amended: when the cached record is absent or stale and the upstream
fetcher signals an error, the non-paginated orchestrators
(`fetch_user_top_tracks`, `fetch_artist_top_tracks`) return an empty
payload and perform no store write; the paginated saved-tracks collector
performs no store write either, but returns the tracks accumulated before
the failure (an empty payload only when the failure precedes any collected
item) — so in every case the next invocation retries regardless of TTL. -/
theorem c1_upstream_failure_amended (ustore : UserStore) (astore : ArtistStore)
    (user_id artist_id : String) (now : ℚ) (limit : Nat) (pages : List PageResult)
    (tracks : List Track) :
    ((∀ rec, ustore (user_id, "top_tracks") = some rec →
        is_stale rec.last_fetched now = true) →
      fetch_user_top_tracks ustore user_id now none = ([], ustore, 1))
    ∧ ((∀ rec, astore artist_id = some rec → is_stale rec.last_fetched now = true) →
      fetch_artist_top_tracks astore artist_id now none = ([], astore, 1))
    ∧ ((∀ rec, ustore (user_id, "saved_tracks") = some rec →
        is_stale rec.last_fetched now = true) →
      collectSavedPages limit pages [] = (false, tracks) →
      fetch_user_saved_tracks ustore user_id now limit pages = (tracks, ustore)) := by
  refine ⟨fun hstale => ?_, fun hstale => ?_, fun hstale hfail => ?_⟩
  · rw [fetch_user_top_tracks]
    cases hc : ustore (user_id, "top_tracks") with
    | none => rfl
    | some rec =>
      show (if is_stale rec.last_fetched now = true
          then fetchTopFromUpstream ustore user_id now none
          else (rec.payload, ustore, 0)) = ([], ustore, 1)
      rw [if_pos (hstale rec hc)]
      rfl
  · rw [fetch_artist_top_tracks]
    cases hc : astore artist_id with
    | none => rfl
    | some rec =>
      show (if is_stale rec.last_fetched now = true
          then fetchArtistFromUpstream astore artist_id now none
          else (rec.payload, astore, 0)) = ([], astore, 1)
      rw [if_pos (hstale rec hc)]
      rfl
  · rw [fetch_user_saved_tracks]
    cases hc : ustore (user_id, "saved_tracks") with
    | none =>
      rw [savedFromUpstream, hfail]
    | some rec =>
      show (if is_stale rec.last_fetched now = true
          then savedFromUpstream ustore user_id now limit pages
          else (rec.payload, ustore)) = (tracks, ustore)
      rw [if_pos (hstale rec hc), savedFromUpstream, hfail]

/-- Witness for C1 amended: empty stores (records absent), failing
fetchers: the non-paginated orchestrators return `[]` with the store
untouched; the collector failing on its first page returns `[]` with the
store untouched. -/
theorem c1_upstream_failure_amended_witness :
    fetch_user_top_tracks emptyUserStore "u" 0 none = ([], emptyUserStore, 1)
    ∧ fetch_artist_top_tracks (fun _ => none) "a" 0 none = ([], fun _ => none, 1)
    ∧ fetch_user_saved_tracks emptyUserStore "u" 0 1 [PageResult.err]
        = ([], emptyUserStore) :=
  ⟨(c1_upstream_failure_amended emptyUserStore (fun _ => none) "u" "a" 0 1 [PageResult.err]
      []).1 (fun _ h => Option.noConfusion h),
   (c1_upstream_failure_amended emptyUserStore (fun _ => none) "u" "a" 0 1 [PageResult.err]
      []).2.1 (fun _ h => Option.noConfusion h),
   (c1_upstream_failure_amended emptyUserStore (fun _ => none) "u" "a" 0 1 [PageResult.err]
      []).2.2 (fun _ h => Option.noConfusion h) rfl⟩

/-- C2: the missing-or-retryable ids are split into chunks of at most 40
(the chunks concatenate back to exactly that id list; `processChunks`
issues one `upstream` request per chunk by construction); for a chunk whose
request succeeds, every returned record is upserted with
`fetch_status = 'ok'` under the id parsed from its href (with that record's
coerced tempo and raw features), and every id of the chunk not among the
parsed ids of the returned records is upserted with
`fetch_status = 'no_data'`. -/
theorem c2_chunk_reconciliation (store : FeatureStore) (track_ids : List String) (now : ℚ)
    (chunk : List String) (content : List RBFeature) :
    (∀ ch ∈ upstreamRequests store track_ids now, ch.length ≤ 40)
    ∧ (upstreamRequests store track_ids now).flatten
        = computeMissingIds track_ids (load_track_features store track_ids) now
    ∧ (∀ sid ∈ returnedIds content,
        ∃ e, processOneChunk store chunk content now sid = some e
          ∧ e.fetch_status = "ok" ∧ e.last_fetched = some now
          ∧ ∃ obj ∈ content, extract_spotify_id_from_href obj.href = some sid
              ∧ e.tempo = coerceTempo obj.tempo ∧ e.features = some obj.raw)
    ∧ (∀ cid ∈ chunk, cid ∉ returnedIds content →
        processOneChunk store chunk content now cid = some (noDataEntry now)) := by
  refine ⟨fun ch hch => chunk40_length_le _ ch hch, chunk40_flatten _,
    fun sid hsid => ?_, fun cid hcid hnot => ?_⟩
  · obtain ⟨obj, hobj, hex, hsave⟩ := save_track_features_returned store content now sid hsid
    have hnomem : sid ∉ chunk.filter (fun x => !((returnedIds content).contains x)) := by
      intro hmem
      have hpred := (List.mem_filter.mp hmem).2
      simp only [Bool.not_eq_true'] at hpred
      have hcont : (returnedIds content).contains sid = true := List.elem_eq_true_of_mem hsid
      rw [hpred] at hcont
      exact Bool.noConfusion hcont
    rw [processOneChunk]
    by_cases hempty :
        (chunk.filter (fun x => !((returnedIds content).contains x))).isEmpty = true
    · rw [if_pos hempty]
      exact ⟨okEntry obj now, hsave, rfl, rfl, obj, hobj, hex, rfl, rfl⟩
    · rw [if_neg hempty, mark_tracks_no_data_not_mem _ _ _ _ hnomem]
      exact ⟨okEntry obj now, hsave, rfl, rfl, obj, hobj, hex, rfl, rfl⟩
  · have hmemf : cid ∈ chunk.filter (fun x => !((returnedIds content).contains x)) := by
      rw [List.mem_filter]
      refine ⟨hcid, ?_⟩
      simp only [Bool.not_eq_true']
      simp [hnot]
    rw [processOneChunk]
    have hempty :
        ¬ (chunk.filter (fun x => !((returnedIds content).contains x))).isEmpty = true := by
      intro hemp
      rw [List.isEmpty_iff] at hemp
      rw [hemp] at hmemf
      exact absurd hmemf (List.not_mem_nil cid)
    rw [if_neg hempty]
    exact mark_tracks_no_data_mem _ _ _ _ hmemf

/-- A concrete chunk response for the C2 witness: one record whose href
parses to `"a"`. -/
def c2Content : List RBFeature :=
  [{ href := some "https://api/track/a", tempo := TempoField.num 120, raw := "r" }]

/-- Witness for C2 on the chunk `["a", "b"]` with a response covering only
`"a"`: `"a"` ends `ok`, the unreturned `"b"` ends `no_data`. -/
theorem c2_chunk_reconciliation_witness :
    (∃ e, processOneChunk emptyFeatureStore ["a", "b"] c2Content 0 "a" = some e
      ∧ e.fetch_status = "ok" ∧ e.last_fetched = some 0
      ∧ ∃ obj ∈ c2Content, extract_spotify_id_from_href obj.href = some "a"
          ∧ e.tempo = coerceTempo obj.tempo ∧ e.features = some obj.raw)
    ∧ processOneChunk emptyFeatureStore ["a", "b"] c2Content 0 "b" = some (noDataEntry 0) :=
  ⟨(c2_chunk_reconciliation emptyFeatureStore [] 0 ["a", "b"] c2Content).2.2.1 "a" (by decide),
   (c2_chunk_reconciliation emptyFeatureStore [] 0 ["a", "b"] c2Content).2.2.2 "b" (by decide)
     (by decide)⟩

/-- C3: an id is among the ids sent upstream (the concatenation of the
issued request chunks) iff it is in the input list and either absent from
the store, or present with status `ok` and stale, or present with status
`no_data` and stale; consequently a fresh `no_data` entry is never part of
any upstream request; and when requests are issued at all, the invocation
is exactly `processChunks` over `upstreamRequests` followed by a reload. -/
theorem c3_retry_selection (store : FeatureStore) (track_ids : List String) (now : ℚ)
    (tid : String) :
    (tid ∈ (upstreamRequests store track_ids now).flatten ↔
      tid ∈ track_ids ∧ (store tid = none
        ∨ ∃ e, store tid = some e ∧ (e.fetch_status = "ok" ∨ e.fetch_status = "no_data")
            ∧ is_stale e.last_fetched now = true))
    ∧ (∀ e, store tid = some e → e.fetch_status = "no_data" →
        is_stale e.last_fetched now = false →
        tid ∉ (upstreamRequests store track_ids now).flatten)
    ∧ (∀ upstream, ¬ track_ids.isEmpty = true →
        ¬ (computeMissingIds track_ids (load_track_features store track_ids) now).isEmpty
            = true →
        fetch_missing_tempos_with_reccobeats store track_ids now upstream =
          (load_track_features
              (processChunks upstream now (upstreamRequests store track_ids now) store)
              track_ids,
           processChunks upstream now (upstreamRequests store track_ids now) store)) := by
  have hiff : tid ∈ (upstreamRequests store track_ids now).flatten ↔
      tid ∈ track_ids ∧ (store tid = none
        ∨ ∃ e, store tid = some e ∧ (e.fetch_status = "ok" ∨ e.fetch_status = "no_data")
            ∧ is_stale e.last_fetched now = true) := by
    rw [upstreamRequests, chunk40_flatten, computeMissingIds, List.mem_filter]
    refine and_congr_right fun htid => ?_
    have hcont : track_ids.contains tid = true := List.elem_eq_true_of_mem htid
    rw [load_track_features]
    simp only [hcont, if_true]
    cases hstore : store tid with
    | none => simp
    | some e =>
      simp only [Bool.or_eq_true, Bool.and_eq_true, beq_iff_eq, Option.some.injEq]
      constructor
      · rintro (⟨hok, hst⟩ | ⟨hnd, hst⟩)
        · exact Or.inr ⟨e, rfl, Or.inl hok, hst⟩
        · exact Or.inr ⟨e, rfl, Or.inr hnd, hst⟩
      · rintro (hnone | ⟨e2, he2, hs, hst⟩)
        · exact Option.noConfusion hnone
        · cases he2
          rcases hs with hok | hnd
          · exact Or.inl ⟨hok, hst⟩
          · exact Or.inr ⟨hnd, hst⟩
  refine ⟨hiff, fun e he hnd hfresh hmem => ?_, fun upstream hne hmiss => ?_⟩
  · rcases (hiff.mp hmem).2 with hnone | ⟨e2, he2, _, hst⟩
    · rw [he] at hnone
      exact Option.noConfusion hnone
    · rw [he] at he2
      cases he2
      rw [hfresh] at hst
      exact Bool.noConfusion hst
  · rw [fetch_missing_tempos_with_reccobeats]
    rw [if_neg hne, if_neg hmiss, upstreamRequests]

/-- A store holding one fresh `no_data` entry under `"a"`. -/
def c3Store : FeatureStore :=
  fun k => if k = "a" then some (noDataEntry 0) else none

/-- Witness for C3: with a fresh `no_data` entry for `"a"`, the id `"a"` is
not part of any upstream request of an invocation over `["a"]` at time 0. -/
theorem c3_retry_selection_witness :
    "a" ∉ (upstreamRequests c3Store ["a"] 0).flatten :=
  (c3_retry_selection c3Store ["a"] 0 "a").2.1 (noDataEntry 0) rfl rfl
    (by norm_num [is_stale, noDataEntry, CACHE_TTL_DAYS])

/-- C4: a chunk whose upstream request fails is skipped entirely — the
invocation behaves exactly as if that chunk were not present, so the other
chunks are still processed normally; an id of the failed chunk that no
other chunk requests or returns keeps its prior store value (absent ids
stay absent, existing entries are unchanged); and the whole invocation
still returns a map together with a store (it is a total function — it
never aborts). -/
theorem c4_failure_isolation (upstream : List String → ChunkResult) (now : ℚ)
    (cs1 cs2 : List (List String)) (chunk : List String) (store : FeatureStore)
    (sid : String) (herr : upstream chunk = ChunkResult.err) :
    (processChunks upstream now (cs1 ++ chunk :: cs2) store
        = processChunks upstream now (cs1 ++ cs2) store)
    ∧ (sid ∈ chunk →
        (∀ c2 ∈ cs1 ++ cs2, ∀ content, upstream c2 = ChunkResult.ok content →
          sid ∉ returnedIds content ∧ sid ∉ c2) →
        processChunks upstream now (cs1 ++ chunk :: cs2) store sid = store sid)
    ∧ (∀ (track_ids : List String),
        ∃ m st, fetch_missing_tempos_with_reccobeats store track_ids now upstream = (m, st)) := by
  refine ⟨processChunks_skip_err upstream now cs1 cs2 chunk store herr,
    fun hmem hothers => ?_, fun track_ids => ⟨_, _, rfl⟩⟩
  rw [processChunks_skip_err upstream now cs1 cs2 chunk store herr]
  exact processChunks_untouched upstream now (cs1 ++ cs2) store sid hothers

/-- The C4 witness upstream: the request for chunk `["a"]` fails, any other
request succeeds with a single record for `"b"`. -/
def c4Upstream : List String → ChunkResult :=
  fun chunk =>
    if chunk = ["a"] then ChunkResult.err
    else ChunkResult.ok [{ href := some "track/b", tempo := TempoField.num 100, raw := "r" }]

/-- Witness for C4: with chunks `[["b"], ["a"]]` where the request for
`["a"]` fails, processing equals processing `[["b"]]` alone, and `"a"`
stays absent. -/
theorem c4_failure_isolation_witness :
    processChunks c4Upstream 0 [["b"], ["a"]] emptyFeatureStore
      = processChunks c4Upstream 0 [["b"]] emptyFeatureStore
    ∧ processChunks c4Upstream 0 [["b"], ["a"]] emptyFeatureStore "a" = emptyFeatureStore "a" := by
  have h := c4_failure_isolation c4Upstream 0 [["b"]] [] ["a"] emptyFeatureStore "a" rfl
  refine ⟨h.1, h.2.1 (by decide) ?_⟩
  intro c2 hc2 content hok
  rcases List.mem_singleton.mp (by simpa using hc2) with rfl
  rw [c4Upstream] at hok
  simp only [if_neg (by decide : ¬ (["b"] : List String) = ["a"])] at hok
  cases hok
  exact ⟨by decide, by decide⟩
